import Mathlib

/-! Isometric office scene: coordinate converter, depth sorter and camera zoom.

A shallow embedding of `static/company-phaser/utils/IsometricUtils.js`,
`static/company-phaser/utils/DepthSorter.js`, the camera methods of
`static/company-phaser/scenes/OfficeScene.js` and the constants of
`static/company-phaser/config/GameConfig.js` they read.

JavaScript numbers are modelled by exact rational arithmetic (`ℚ`): every
statement below is about the closed-form formulas of the source, not about
IEEE-754 rounding.
-/

namespace CompanyPhaser

/-! ## GameConfig.js -/

namespace TILE_CONFIG

/-- Isometric tile width, `TILE_CONFIG.WIDTH`. -/
def WIDTH : ℚ := 64

/-- Isometric tile height, `TILE_CONFIG.HEIGHT`. -/
def HEIGHT : ℚ := 32

end TILE_CONFIG

/-! ## IsometricUtils.js -/

/-- Screen coordinates, the object `{x, y}` returned by `gridToScreen`. -/
structure ScreenPoint where
  x : ℚ
  y : ℚ
  deriving DecidableEq, Repr

/-- Grid coordinates, the object `{gx, gy}` returned by `screenToGrid`. -/
structure GridPoint where
  gx : ℚ
  gy : ℚ
  deriving DecidableEq, Repr

/-- Grid coordinates to screen coordinates (`gridToScreen`). -/
def gridToScreen (gx gy : ℚ) : ScreenPoint :=
  let tileW := TILE_CONFIG.WIDTH
  let tileH := TILE_CONFIG.HEIGHT
  { x := (gx - gy) * (tileW / 2)
    y := (gx + gy) * (tileH / 2) }

/-- Screen coordinates to (fractional) grid coordinates (`screenToGrid`). -/
def screenToGrid (screenX screenY : ℚ) : GridPoint :=
  let tileW := TILE_CONFIG.WIDTH
  let tileH := TILE_CONFIG.HEIGHT
  { gx := (screenX / (tileW / 2) + screenY / (tileH / 2)) / 2
    gy := (screenY / (tileH / 2) - screenX / (tileW / 2)) / 2 }

/-- Z-index used for depth sorting (`calculateDepth`); `layer` defaults to 0
as in the source's parameter list. -/
def calculateDepth (gx gy : ℚ) (layer : ℚ := 0) : ℚ :=
  (gx + gy) * 100 + layer

/-! ## DepthSorter.js

Game objects are JavaScript objects compared by reference.  A reference is a
natural number and the heap maps each reference to the fields of the object
that the sorter reads or writes. -/

/-- A reference to a game object (object identity). -/
abbrev Ref := Nat

/-- The fields of a game object the depth sorter touches.  A tag that was
never assigned is `undefined` in the source and `none` here; `depth` is the
draw-order key last stored by `setDepth` (`none`: no numeric key). -/
structure GameObject where
  _isoGx : Option ℚ
  _isoGy : Option ℚ
  _isoLayerOffset : Option ℚ
  depth : Option ℚ
  deriving DecidableEq, Repr

/-- A game object that no sorter operation has touched yet. -/
def GameObject.fresh : GameObject :=
  { _isoGx := none, _isoGy := none, _isoLayerOffset := none, depth := none }

/-- The state the `DepthSorter` methods run in: the heap of game objects, the
sorter's fields `objects` and `_needsSort`, and the sequence of `setDepth`
calls made so far (`scene` is stored by the constructor and never read). -/
structure State where
  heap : Ref → GameObject
  objects : List Ref
  _needsSort : Bool
  setDepthCalls : List (Ref × Option ℚ)

/-- The call `calculateDepth(obj._isoGx, obj._isoGy, obj._isoLayerOffset)` made
by `sort`: an undefined layer takes the parameter default, an undefined
coordinate makes the sum not a number (`none`). -/
def calculateDepthOf (o : GameObject) : Option ℚ :=
  match o._isoGx, o._isoGy with
  | some gx, some gy =>
    match o._isoLayerOffset with
    | some layer => some (calculateDepth gx gy layer)
    | none => some (calculateDepth gx gy)
  | _, _ => none

/-- The drawable's `setDepth(depth)`: stores the draw-order key on the object;
the call is recorded in `setDepthCalls`. -/
def setDepth (w : State) (obj : Ref) (depth : Option ℚ) : State :=
  { w with
    heap := Function.update w.heap obj { w.heap obj with depth := depth }
    setDepthCalls := w.setDepthCalls ++ [(obj, depth)] }

/-- Array `indexOf`: position of the first element identical to `obj`, or -1. -/
def indexOf (xs : List Ref) (obj : Ref) : Int :=
  if xs.indexOf obj < xs.length then (xs.indexOf obj : Int) else -1

/-- The `for (const obj of this.objects)` loop of `sort`, run over `objs`:
each object gets `setDepth(calculateDepth(...))` from its own tags. -/
def sortLoop (objs : List Ref) (w : State) : State :=
  objs.foldl (fun acc obj => setDepth acc obj (calculateDepthOf (acc.heap obj))) w

namespace DepthSorter

/-- The constructor `new DepthSorter(scene)`: an empty registry, not dirty. -/
def new (heap : Ref → GameObject) : State :=
  { heap := heap, objects := [], _needsSort := false, setDepthCalls := [] }

/-- The method `add(obj, gx, gy, layerOffset = 0)`. -/
def add (w : State) (obj : Ref) (gx gy : ℚ) (layerOffset : ℚ := 0) : State :=
  { w with
    heap := Function.update w.heap obj
      { w.heap obj with
        _isoGx := some gx, _isoGy := some gy, _isoLayerOffset := some layerOffset }
    objects := w.objects ++ [obj]
    _needsSort := true }

/-- The method `remove(obj)`. -/
def remove (w : State) (obj : Ref) : State :=
  let index := indexOf w.objects obj
  if index > -1 then
    { w with objects := w.objects.eraseIdx index.toNat }
  else w

/-- The method `updatePosition(obj, gx, gy)`. -/
def updatePosition (w : State) (obj : Ref) (gx gy : ℚ) : State :=
  { w with
    heap := Function.update w.heap obj
      { w.heap obj with _isoGx := some gx, _isoGy := some gy }
    _needsSort := true }

/-- The method `sort()`. -/
def sort (w : State) : State :=
  if !w._needsSort then w
  else
    let w' := sortLoop w.objects w
    { w' with _needsSort := false }

/-- The method `markDirty()`. -/
def markDirty (w : State) : State :=
  { w with _needsSort := true }

/-- The method `clear()`. -/
def clear (w : State) : State :=
  { w with objects := [] }

end DepthSorter

/-- The grid tags `(_isoGx, _isoGy, _isoLayerOffset)` of a game object. -/
def GameObject.tags (o : GameObject) : Option ℚ × Option ℚ × Option ℚ :=
  (o._isoGx, o._isoGy, o._isoLayerOffset)

/-- The grid tags read through the `i`-th registry entry, `none` when the
registry has no such entry. -/
def entryTags (w : State) (i : Nat) : Option (Option ℚ × Option ℚ × Option ℚ) :=
  (w.objects.get? i).map fun obj => (w.heap obj).tags

/-- A freshly constructed sorter over a heap of untouched game objects. -/
def freshSorter : State :=
  DepthSorter.new fun _ => GameObject.fresh

/-! ## IsometricUtils.js: tile and box geometry -/

/-- The object `{top, right, bottom, left}` returned by `getTileCorners`. -/
structure TileCorners where
  top : ScreenPoint
  right : ScreenPoint
  bottom : ScreenPoint
  left : ScreenPoint
  deriving DecidableEq, Repr

/-- The four corners of the isometric tile at a grid cell (`getTileCorners`). -/
def getTileCorners (gx gy : ℚ) : TileCorners :=
  let center := gridToScreen gx gy
  let halfW := TILE_CONFIG.WIDTH / 2
  let halfH := TILE_CONFIG.HEIGHT / 2
  { top := { x := center.x, y := center.y - halfH }
    right := { x := center.x + halfW, y := center.y }
    bottom := { x := center.x, y := center.y + halfH }
    left := { x := center.x - halfW, y := center.y } }

/-- The object `{top, left, right}` returned by `getBoxVertices`: three faces of
four vertices each. -/
structure BoxVertices where
  top : List ScreenPoint
  left : List ScreenPoint
  right : List ScreenPoint
  deriving DecidableEq, Repr

/-- Vertices of the faces of an isometric box (`getBoxVertices`); `width` and
`depth` are documented as tile counts along gx and gy, `height` is in pixels. -/
def getBoxVertices (width depth height : ℚ) : BoxVertices :=
  let tileW := TILE_CONFIG.WIDTH
  let tileH := TILE_CONFIG.HEIGHT
  let w := width * tileW / 2
  let d := depth * tileH / 2
  { top := [ { x := 0, y := -d - height },
             { x := w, y := -height },
             { x := 0, y := d - height },
             { x := -w, y := -height } ]
    left := [ { x := -w, y := -height },
              { x := 0, y := d - height },
              { x := 0, y := d },
              { x := -w, y := 0 } ]
    right := [ { x := w, y := -height },
               { x := w, y := 0 },
               { x := 0, y := d },
               { x := 0, y := d - height } ] }

/-- A screen point moved up by `height` pixels (screen y grows downwards). -/
def ScreenPoint.raise (p : ScreenPoint) (height : ℚ) : ScreenPoint :=
  { x := p.x, y := p.y - height }

/-- The isometric projection of a box footprint, as the specification words it:
the `gridToScreen` images of the north, east, south and west corners of the
`width`-by-`depth` grid rectangle centred on the grid origin, each raised by
`height` pixels. -/
def footprintProjection (width depth height : ℚ) : List ScreenPoint :=
  [ (gridToScreen (-(width / 2)) (-(depth / 2))).raise height,
    (gridToScreen (width / 2) (-(depth / 2))).raise height,
    (gridToScreen (width / 2) (depth / 2)).raise height,
    (gridToScreen (-(width / 2)) (depth / 2)).raise height ]

/-! ### The converter with every division checked

The same four functions with each `/` of the source replaced by a division
that fails (`none`) on a zero divisor. -/

/-- Division that fails on a zero divisor. -/
def checkedDiv (a b : ℚ) : Option ℚ :=
  if b = 0 then none else some (a / b)

/-- The function `gridToScreen` with checked divisions. -/
def gridToScreenChecked (gx gy : ℚ) : Option ScreenPoint := do
  let tileW := TILE_CONFIG.WIDTH
  let tileH := TILE_CONFIG.HEIGHT
  let hw ← checkedDiv tileW 2
  let hh ← checkedDiv tileH 2
  pure { x := (gx - gy) * hw, y := (gx + gy) * hh }

/-- The function `screenToGrid` with checked divisions. -/
def screenToGridChecked (screenX screenY : ℚ) : Option GridPoint := do
  let tileW := TILE_CONFIG.WIDTH
  let tileH := TILE_CONFIG.HEIGHT
  let hw ← checkedDiv tileW 2
  let hh ← checkedDiv tileH 2
  let a ← checkedDiv screenX hw
  let b ← checkedDiv screenY hh
  let gx ← checkedDiv (a + b) 2
  let gy ← checkedDiv (b - a) 2
  pure { gx := gx, gy := gy }

/-- The function `getTileCorners` with checked divisions. -/
def getTileCornersChecked (gx gy : ℚ) : Option TileCorners := do
  let center ← gridToScreenChecked gx gy
  let halfW ← checkedDiv TILE_CONFIG.WIDTH 2
  let halfH ← checkedDiv TILE_CONFIG.HEIGHT 2
  pure
    { top := { x := center.x, y := center.y - halfH }
      right := { x := center.x + halfW, y := center.y }
      bottom := { x := center.x, y := center.y + halfH }
      left := { x := center.x - halfW, y := center.y } }

/-- The function `getBoxVertices` with checked divisions. -/
def getBoxVerticesChecked (width depth height : ℚ) : Option BoxVertices := do
  let tileW := TILE_CONFIG.WIDTH
  let tileH := TILE_CONFIG.HEIGHT
  let w ← checkedDiv (width * tileW) 2
  let d ← checkedDiv (depth * tileH) 2
  pure
    { top := [ { x := 0, y := -d - height },
               { x := w, y := -height },
               { x := 0, y := d - height },
               { x := -w, y := -height } ]
      left := [ { x := -w, y := -height },
                { x := 0, y := d - height },
                { x := 0, y := d },
                { x := -w, y := 0 } ]
      right := [ { x := w, y := -height },
                 { x := w, y := 0 },
                 { x := 0, y := d },
                 { x := 0, y := d - height } ] }

/-! ## DepthSorter.js: sequences of method calls -/

/-- One call of a `DepthSorter` method, with its arguments. -/
inductive Op where
  | add (obj : Ref) (gx gy layerOffset : ℚ)
  | remove (obj : Ref)
  | updatePosition (obj : Ref) (gx gy : ℚ)
  | sort
  | markDirty
  | clear
  deriving DecidableEq, Repr

/-- The state after one method call. -/
def step (w : State) : Op → State
  | .add obj gx gy layerOffset => DepthSorter.add w obj gx gy layerOffset
  | .remove obj => DepthSorter.remove w obj
  | .updatePosition obj gx gy => DepthSorter.updatePosition w obj gx gy
  | .sort => DepthSorter.sort w
  | .markDirty => DepthSorter.markDirty w
  | .clear => DepthSorter.clear w

/-- The state after a sequence of method calls, made in order. -/
def run (w : State) (ops : List Op) : State :=
  ops.foldl step w

/-- Every registered drawable carries all three grid tags. -/
def AllTagged (w : State) : Prop :=
  ∀ obj ∈ w.objects, ∃ gx gy l : ℚ, (w.heap obj).tags = (some gx, some gy, some l)

/-- While the sorter is clean, every registered drawable's depth is the one
`sort` computes from its current tags. -/
def CleanMeansSorted (w : State) : Prop :=
  w._needsSort = false →
    ∀ obj ∈ w.objects, (w.heap obj).depth = calculateDepthOf (w.heap obj)

/-! ## OfficeScene.js: camera zoom -/

namespace ROOM_CONFIG

/-- Room width in tiles, `ROOM_CONFIG.WIDTH`. -/
def WIDTH : ℚ := 14

/-- Room height in tiles, `ROOM_CONFIG.HEIGHT`. -/
def HEIGHT : ℚ := 10

end ROOM_CONFIG

namespace CAMERA_CONFIG

/-- Smallest zoom, `CAMERA_CONFIG.MIN_ZOOM`. -/
def MIN_ZOOM : ℚ := 0.5

/-- Largest zoom, `CAMERA_CONFIG.MAX_ZOOM`. -/
def MAX_ZOOM : ℚ := 2.5

/-- Zoom the scene is constructed with, `CAMERA_CONFIG.DEFAULT_ZOOM`. -/
def DEFAULT_ZOOM : ℚ := 1.2

end CAMERA_CONFIG

/-- The library function `Phaser.Math.Clamp(value, min, max)`, which is
`Math.max(min, Math.min(max, value))`; it belongs to the rendering engine, not
to this repository. -/
def Phaser.Math.Clamp (value min max : ℚ) : ℚ :=
  Max.max min (Min.min max value)

/-- The camera state of `OfficeScene`: the field `cameraZoom` and the position
and scale of `worldContainer` (`setScale(s)` sets both scale factors to `s`). -/
structure OfficeScene where
  cameraZoom : ℚ
  worldContainerX : ℚ
  worldContainerY : ℚ
  worldContainerScale : ℚ
  deriving DecidableEq, Repr

namespace OfficeScene

/-- The method `_setupCamera()`; `mainWidth` and `mainHeight` are
`this.cameras.main.width` and `.height` at the time of the call. -/
def _setupCamera (s : OfficeScene) (mainWidth mainHeight : ℚ) : OfficeScene :=
  let roomCenterGx := ROOM_CONFIG.WIDTH / 2
  let roomCenterGy := ROOM_CONFIG.HEIGHT / 2
  let roomCenter := gridToScreen roomCenterGx roomCenterGy
  let centerX := mainWidth / 2 - roomCenter.x
  let centerY := mainHeight / 2 - roomCenter.y - 30
  { s with
    worldContainerX := centerX
    worldContainerY := centerY
    worldContainerScale := s.cameraZoom }

/-- The camera state when `create()` returns: the constructor sets
`cameraZoom` to the default, `_initLayers` creates the container at (0, 0)
with unit scale, and `_setupCamera` runs. -/
def create (mainWidth mainHeight : ℚ) : OfficeScene :=
  _setupCamera
    { cameraZoom := CAMERA_CONFIG.DEFAULT_ZOOM
      worldContainerX := 0
      worldContainerY := 0
      worldContainerScale := 1 }
    mainWidth mainHeight

/-- The method `_zoom(factor, pivotX, pivotY)`. -/
def _zoom (s : OfficeScene) (factor pivotX pivotY : ℚ) : OfficeScene :=
  let oldZoom := s.cameraZoom
  let cameraZoom := Phaser.Math.Clamp (s.cameraZoom * factor)
    CAMERA_CONFIG.MIN_ZOOM CAMERA_CONFIG.MAX_ZOOM
  let zoomRatio := cameraZoom / oldZoom
  let newX := pivotX - (pivotX - s.worldContainerX) * zoomRatio
  let newY := pivotY - (pivotY - s.worldContainerY) * zoomRatio
  { cameraZoom := cameraZoom
    worldContainerScale := cameraZoom
    worldContainerX := newX
    worldContainerY := newY }

/-- The mouse-wheel handler registered by `_setupInput`. -/
def wheel (s : OfficeScene) (pointerX pointerY deltaY : ℚ) : OfficeScene :=
  let zoomFactor : ℚ := if deltaY > 0 then 0.9 else 1.1
  _zoom s zoomFactor pointerX pointerY

/-- The method `zoomIn()`. -/
def zoomIn (s : OfficeScene) (mainWidth mainHeight : ℚ) : OfficeScene :=
  let center : ScreenPoint := { x := mainWidth / 2, y := mainHeight / 2 }
  _zoom s 1.2 center.x center.y

/-- The method `zoomOut()`. -/
def zoomOut (s : OfficeScene) (mainWidth mainHeight : ℚ) : OfficeScene :=
  let center : ScreenPoint := { x := mainWidth / 2, y := mainHeight / 2 }
  _zoom s 0.8 center.x center.y

/-- The method `resetView()`. -/
def resetView (s : OfficeScene) (mainWidth mainHeight : ℚ) : OfficeScene :=
  _setupCamera s mainWidth mainHeight

end OfficeScene

/-- One zoom-related event on the scene, with the values it reads: the pointer
position and wheel delta, or the size of the main camera at that moment. -/
inductive CameraOp where
  | wheel (pointerX pointerY deltaY : ℚ)
  | zoomIn (mainWidth mainHeight : ℚ)
  | zoomOut (mainWidth mainHeight : ℚ)
  | resetView (mainWidth mainHeight : ℚ)
  deriving DecidableEq, Repr

/-- The camera state after one event. -/
def cameraStep (s : OfficeScene) : CameraOp → OfficeScene
  | .wheel pointerX pointerY deltaY => OfficeScene.wheel s pointerX pointerY deltaY
  | .zoomIn mainWidth mainHeight => OfficeScene.zoomIn s mainWidth mainHeight
  | .zoomOut mainWidth mainHeight => OfficeScene.zoomOut s mainWidth mainHeight
  | .resetView mainWidth mainHeight => OfficeScene.resetView s mainWidth mainHeight

/-- The camera state after a sequence of events, in order. -/
def cameraRun (s : OfficeScene) (ops : List CameraOp) : OfficeScene :=
  ops.foldl cameraStep s

/-! ## Coordinate converter: theorems -/

/-- C1: for all `gx`, `gy`, `screenToGrid(gridToScreen(gx, gy))` is exactly
`(gx, gy)` in exact arithmetic, with tile half-width 32 and half-height 16. -/
theorem screenToGrid_gridToScreen (gx gy : ℚ) :
    screenToGrid (gridToScreen gx gy).x (gridToScreen gx gy).y = { gx := gx, gy := gy } := by
  simp only [screenToGrid, gridToScreen, TILE_CONFIG.WIDTH, TILE_CONFIG.HEIGHT,
    GridPoint.mk.injEq]
  constructor <;> ring

/-- C2: `gridToScreen(gx, gy)` returns `x = (gx - gy) * hw` and
`y = (gx + gy) * hh`, where `hw = TILE_CONFIG.WIDTH / 2 = 32` and
`hh = TILE_CONFIG.HEIGHT / 2 = 16`. -/
theorem gridToScreen_formula (gx gy : ℚ) :
    TILE_CONFIG.WIDTH / 2 = 32 ∧ TILE_CONFIG.HEIGHT / 2 = 16 ∧
    (gridToScreen gx gy).x = (gx - gy) * (TILE_CONFIG.WIDTH / 2) ∧
    (gridToScreen gx gy).y = (gx + gy) * (TILE_CONFIG.HEIGHT / 2) ∧
    gridToScreen gx gy = { x := (gx - gy) * 32, y := (gx + gy) * 16 } := by
  simp only [gridToScreen, TILE_CONFIG.WIDTH, TILE_CONFIG.HEIGHT, ScreenPoint.mk.injEq]
  norm_num

/-- C3: `screenToGrid(x, y) = ((x/hw + y/hh)/2, (y/hh - x/hw)/2)` with
`hw = 32`, `hh = 16`; `gridToScreen(screenToGrid(x, y)) = (x, y)`; and the two
functions are mutually inverse bijections of the plane. -/
theorem screenToGrid_inverse :
    (∀ x y : ℚ, screenToGrid x y
        = { gx := (x / 32 + y / 16) / 2, gy := (y / 16 - x / 32) / 2 }) ∧
    (∀ x y : ℚ, gridToScreen (screenToGrid x y).gx (screenToGrid x y).gy
        = { x := x, y := y }) ∧
    Function.LeftInverse (fun s : ScreenPoint => screenToGrid s.x s.y)
      (fun g : GridPoint => gridToScreen g.gx g.gy) ∧
    Function.RightInverse (fun s : ScreenPoint => screenToGrid s.x s.y)
      (fun g : GridPoint => gridToScreen g.gx g.gy) ∧
    Function.Bijective (fun g : GridPoint => gridToScreen g.gx g.gy) ∧
    Function.Bijective (fun s : ScreenPoint => screenToGrid s.x s.y) := by
  have hform : ∀ x y : ℚ, screenToGrid x y
      = { gx := (x / 32 + y / 16) / 2, gy := (y / 16 - x / 32) / 2 } := by
    intro x y
    simp only [screenToGrid, TILE_CONFIG.WIDTH, TILE_CONFIG.HEIGHT, GridPoint.mk.injEq]
    norm_num
  have hback : ∀ x y : ℚ, gridToScreen (screenToGrid x y).gx (screenToGrid x y).gy
      = { x := x, y := y } := by
    intro x y
    simp only [screenToGrid, gridToScreen, TILE_CONFIG.WIDTH, TILE_CONFIG.HEIGHT,
      ScreenPoint.mk.injEq]
    constructor <;> ring
  have hfwd : ∀ gx gy : ℚ, screenToGrid (gridToScreen gx gy).x (gridToScreen gx gy).y
      = { gx := gx, gy := gy } := by
    intro gx gy
    simp only [screenToGrid, gridToScreen, TILE_CONFIG.WIDTH, TILE_CONFIG.HEIGHT,
      GridPoint.mk.injEq]
    constructor <;> ring
  have hL : Function.LeftInverse (fun s : ScreenPoint => screenToGrid s.x s.y)
      (fun g : GridPoint => gridToScreen g.gx g.gy) := fun g => hfwd g.gx g.gy
  have hR : Function.RightInverse (fun s : ScreenPoint => screenToGrid s.x s.y)
      (fun g : GridPoint => gridToScreen g.gx g.gy) := fun s => hback s.x s.y
  exact ⟨hform, hback, hL, hR, ⟨hL.injective, hR.surjective⟩,
    ⟨hR.injective, hL.surjective⟩⟩

/-! ## Depth key: theorems -/

/-- C5: with K = 100, for integer grid cells and layer offsets in 0..99,
`calculateDepth(gx1, gy1, l1) < calculateDepth(gx2, gy2, l2)` holds exactly
when `(gx1 + gy1, l1)` is lexicographically smaller than `(gx2 + gy2, l2)`. -/
theorem calculateDepth_lt_iff_lex (gx1 gy1 gx2 gy2 : ℤ) (l1 l2 : ℚ)
    (h1 : 0 ≤ l1 ∧ l1 ≤ 99) (h2 : 0 ≤ l2 ∧ l2 ≤ 99) :
    calculateDepth gx1 gy1 l1 < calculateDepth gx2 gy2 l2 ↔
      (gx1 + gy1 < gx2 + gy2 ∨ (gx1 + gy1 = gx2 + gy2 ∧ l1 < l2)) := by
  obtain ⟨h1a, h1b⟩ := h1
  obtain ⟨h2a, h2b⟩ := h2
  simp only [calculateDepth]
  constructor
  · intro h
    by_contra hne
    push_neg at hne
    obtain ⟨hge, himp⟩ := hne
    rcases lt_or_eq_of_le hge with hlt | heq
    · have hz : gx2 + gy2 + 1 ≤ gx1 + gy1 := hlt
      have hq : ((gx2 : ℚ) + gy2) + 1 ≤ (gx1 : ℚ) + gy1 := by exact_mod_cast hz
      linarith
    · have hq : ((gx2 : ℚ) + gy2) = (gx1 : ℚ) + gy1 := by exact_mod_cast heq
      have := himp heq.symm
      rw [hq] at h
      linarith
  · rintro (hlt | ⟨heq, hl⟩)
    · have hz : gx1 + gy1 + 1 ≤ gx2 + gy2 := hlt
      have hq : ((gx1 : ℚ) + gy1) + 1 ≤ (gx2 : ℚ) + gy2 := by exact_mod_cast hz
      linarith
    · have hq : ((gx1 : ℚ) + gy1) = (gx2 : ℚ) + gy2 := by exact_mod_cast heq
      rw [hq]
      linarith

/-- Witness for C5 at the cells (0,1) and (1,0) with layers 99 and 0. -/
theorem calculateDepth_lt_iff_lex_witness :
    ((0 : ℚ) ≤ 99 ∧ (99 : ℚ) ≤ 99) ∧ ((0 : ℚ) ≤ 0 ∧ (0 : ℚ) ≤ 99) ∧
    (calculateDepth (0 : ℤ) (1 : ℤ) 99 < calculateDepth (1 : ℤ) (0 : ℤ) 0 ↔
      ((0 : ℤ) + 1 < 1 + 0 ∨ ((0 : ℤ) + 1 = 1 + 0 ∧ (99 : ℚ) < 0))) :=
  ⟨by norm_num, by norm_num,
    calculateDepth_lt_iff_lex 0 1 1 0 99 0 (by norm_num) (by norm_num)⟩

/-- C6 (evaluation at the failing input): layer 999 is inside the documented
range 0..999, the cell (1,0) is further south than (0,0), and yet
`calculateDepth(0, 0, 999) = 999` exceeds `calculateDepth(1, 0, 0) = 100`. -/
theorem calculateDepth_layer_999_crosses :
    calculateDepth 0 0 999 = 999 ∧ calculateDepth 1 0 0 = 100 ∧
    (0 : ℤ) + 0 < 1 + 0 ∧ ¬ (calculateDepth 0 0 999 < calculateDepth 1 0 0) := by
  simp only [calculateDepth]
  norm_num

/-! ## DepthSorter: lemmas on the loop of `sort` -/

theorem calculateDepthOf_setDepth (w : State) (obj r : Ref) (d : Option ℚ) :
    calculateDepthOf ((setDepth w obj d).heap r) = calculateDepthOf (w.heap r) := by
  unfold setDepth
  by_cases h : r = obj
  · subst h
    simp [calculateDepthOf]
  · simp [Function.update_noteq h]

theorem sortLoop_objects (objs : List Ref) (w : State) :
    (sortLoop objs w).objects = w.objects ∧
    (sortLoop objs w)._needsSort = w._needsSort := by
  induction objs generalizing w with
  | nil => exact ⟨rfl, rfl⟩
  | cons a t ih =>
    have h := ih (setDepth w a (calculateDepthOf (w.heap a)))
    simpa [sortLoop, setDepth] using h

theorem sortLoop_calls (objs : List Ref) (w : State) :
    (sortLoop objs w).setDepthCalls
      = w.setDepthCalls ++ objs.map fun obj => (obj, calculateDepthOf (w.heap obj)) := by
  induction objs generalizing w with
  | nil => simp [sortLoop]
  | cons a t ih =>
    have h := ih (setDepth w a (calculateDepthOf (w.heap a)))
    have hcd : ∀ r, calculateDepthOf ((setDepth w a (calculateDepthOf (w.heap a))).heap r)
        = calculateDepthOf (w.heap r) := fun r => calculateDepthOf_setDepth w a r _
    simp only [hcd] at h
    have hstep : sortLoop (a :: t) w
        = sortLoop t (setDepth w a (calculateDepthOf (w.heap a))) := rfl
    rw [hstep, h]
    simp [setDepth]

theorem sortLoop_heap (objs : List Ref) (w : State) (r : Ref) :
    (sortLoop objs w).heap r
      = if r ∈ objs then { w.heap r with depth := calculateDepthOf (w.heap r) }
        else w.heap r := by
  induction objs generalizing w with
  | nil => simp [sortLoop]
  | cons a t ih =>
    have hstep : sortLoop (a :: t) w
        = sortLoop t (setDepth w a (calculateDepthOf (w.heap a))) := rfl
    rw [hstep, ih, calculateDepthOf_setDepth]
    by_cases hra : r = a
    · subst hra
      by_cases hrt : r ∈ t <;> simp [hrt, setDepth]
    · by_cases hrt : r ∈ t <;> simp [hrt, hra, setDepth, Function.update_noteq hra]

theorem sort_of_dirty (w : State) (h : w._needsSort = true) :
    DepthSorter.sort w = { sortLoop w.objects w with _needsSort := false } := by
  simp [DepthSorter.sort, sortLoop, h]

theorem sort_of_clean (w : State) (h : w._needsSort = false) :
    DepthSorter.sort w = w := by
  simp [DepthSorter.sort, h]

/-! ## DepthSorter: theorems -/

/-- C4: after `sort()` on a dirty sorter the dirty flag is clear, the
`setDepth` calls made are exactly one per registry entry with the depth computed
from that drawable's tags, and every registered drawable with tags
`(gx, gy, layerOffset)` has depth `(gx + gy) * 100 + layerOffset`; in
particular after `add(A,5,2,10)`, `add(B,5,7,0)`, `sort()` the depth of A is
710, the depth of B is 1200, and B's key is greater than A's. -/
theorem sort_dirty_applies_depth (w w0 : State) (A B : Ref)
    (hdirty : w._needsSort = true) (hAB : A ≠ B) :
    (DepthSorter.sort w)._needsSort = false ∧
    (DepthSorter.sort w).objects = w.objects ∧
    (DepthSorter.sort w).setDepthCalls
      = w.setDepthCalls ++ w.objects.map (fun obj => (obj, calculateDepthOf (w.heap obj))) ∧
    (∀ obj ∈ w.objects, ∀ gx gy l : ℚ,
      (w.heap obj).tags = (some gx, some gy, some l) →
        ((DepthSorter.sort w).heap obj).tags = (some gx, some gy, some l) ∧
        (obj, some ((gx + gy) * 100 + l)) ∈ (DepthSorter.sort w).setDepthCalls ∧
        ((DepthSorter.sort w).heap obj).depth = some ((gx + gy) * 100 + l)) ∧
    ((DepthSorter.sort (DepthSorter.add (DepthSorter.add w0 A 5 2 10) B 5 7 0)).heap A).depth
      = some 710 ∧
    ((DepthSorter.sort (DepthSorter.add (DepthSorter.add w0 A 5 2 10) B 5 7 0)).heap B).depth
      = some 1200 ∧
    (∃ a b : ℚ,
      ((DepthSorter.sort (DepthSorter.add (DepthSorter.add w0 A 5 2 10) B 5 7 0)).heap A).depth
        = some a ∧
      ((DepthSorter.sort (DepthSorter.add (DepthSorter.add w0 A 5 2 10) B 5 7 0)).heap B).depth
        = some b ∧ a < b) := by
  have hcalls := sortLoop_calls w.objects w
  have hA : ((DepthSorter.sort
      (DepthSorter.add (DepthSorter.add w0 A 5 2 10) B 5 7 0)).heap A).depth = some 710 := by
    rw [sort_of_dirty _ rfl]
    show ((sortLoop _ _).heap A).depth = _
    rw [sortLoop_heap]
    simp [DepthSorter.add, calculateDepthOf, calculateDepth, Function.update_noteq hAB]
    norm_num
  have hB : ((DepthSorter.sort
      (DepthSorter.add (DepthSorter.add w0 A 5 2 10) B 5 7 0)).heap B).depth = some 1200 := by
    rw [sort_of_dirty _ rfl]
    show ((sortLoop _ _).heap B).depth = _
    rw [sortLoop_heap]
    simp [DepthSorter.add, calculateDepthOf, calculateDepth]
    norm_num
  refine ⟨?_, ?_, ?_, ?_, hA, hB, 710, 1200, hA, hB, by norm_num⟩
  · rw [sort_of_dirty w hdirty]
  · rw [sort_of_dirty w hdirty]
    exact (sortLoop_objects w.objects w).1
  · rw [sort_of_dirty w hdirty]
    exact hcalls
  · intro obj hobj gx gy l htags
    have hcd : calculateDepthOf (w.heap obj) = some ((gx + gy) * 100 + l) := by
      simp only [GameObject.tags, Prod.mk.injEq] at htags
      obtain ⟨hx, hy, hl⟩ := htags
      simp [calculateDepthOf, calculateDepth, hx, hy, hl]
    have hheap : (DepthSorter.sort w).heap obj
        = { w.heap obj with depth := calculateDepthOf (w.heap obj) } := by
      rw [sort_of_dirty w hdirty]
      have := sortLoop_heap w.objects w obj
      simpa [hobj] using this
    refine ⟨?_, ?_, ?_⟩
    · rw [hheap]
      simpa [GameObject.tags] using htags
    · rw [sort_of_dirty w hdirty]
      show _ ∈ (sortLoop w.objects w).setDepthCalls
      rw [hcalls, ← hcd]
      exact List.mem_append_right _ (List.mem_map.mpr ⟨obj, hobj, rfl⟩)
    · rw [hheap, ← hcd]

/-- Witness for C4: the sorter after `add(0, 5, 2, 10)` on a fresh sorter is
dirty, and the drawables 0 and 1 are distinct. -/
theorem sort_dirty_applies_depth_witness :
    (DepthSorter.add freshSorter 0 5 2 10)._needsSort = true ∧ (0 : Ref) ≠ 1 ∧
    ((DepthSorter.sort (DepthSorter.add freshSorter 0 5 2 10))._needsSort = false ∧
    (DepthSorter.sort (DepthSorter.add freshSorter 0 5 2 10)).objects
      = (DepthSorter.add freshSorter 0 5 2 10).objects ∧
    (DepthSorter.sort (DepthSorter.add freshSorter 0 5 2 10)).setDepthCalls
      = (DepthSorter.add freshSorter 0 5 2 10).setDepthCalls
        ++ (DepthSorter.add freshSorter 0 5 2 10).objects.map
          (fun obj => (obj, calculateDepthOf ((DepthSorter.add freshSorter 0 5 2 10).heap obj))) ∧
    (∀ obj ∈ (DepthSorter.add freshSorter 0 5 2 10).objects, ∀ gx gy l : ℚ,
      ((DepthSorter.add freshSorter 0 5 2 10).heap obj).tags = (some gx, some gy, some l) →
        ((DepthSorter.sort (DepthSorter.add freshSorter 0 5 2 10)).heap obj).tags
          = (some gx, some gy, some l) ∧
        (obj, some ((gx + gy) * 100 + l))
          ∈ (DepthSorter.sort (DepthSorter.add freshSorter 0 5 2 10)).setDepthCalls ∧
        ((DepthSorter.sort (DepthSorter.add freshSorter 0 5 2 10)).heap obj).depth
          = some ((gx + gy) * 100 + l)) ∧
    ((DepthSorter.sort (DepthSorter.add (DepthSorter.add freshSorter 0 5 2 10) 1 5 7 0)).heap
      0).depth = some 710 ∧
    ((DepthSorter.sort (DepthSorter.add (DepthSorter.add freshSorter 0 5 2 10) 1 5 7 0)).heap
      1).depth = some 1200 ∧
    (∃ a b : ℚ,
      ((DepthSorter.sort (DepthSorter.add (DepthSorter.add freshSorter 0 5 2 10) 1 5 7 0)).heap
        0).depth = some a ∧
      ((DepthSorter.sort (DepthSorter.add (DepthSorter.add freshSorter 0 5 2 10) 1 5 7 0)).heap
        1).depth = some b ∧ a < b)) :=
  ⟨rfl, by decide,
    sort_dirty_applies_depth (DepthSorter.add freshSorter 0 5 2 10) freshSorter 0 1 rfl
      (by decide)⟩

/-- C7: if the dirty flag is clear, `sort()` is a no-op: the whole state
(registry, every drawable's tags and depth, dirty flag) is unchanged and no
`setDepth` call is made. -/
theorem sort_clean_noop (w : State) (hclean : w._needsSort = false) :
    DepthSorter.sort w = w ∧
    (DepthSorter.sort w).setDepthCalls = w.setDepthCalls ∧
    (DepthSorter.sort w).objects = w.objects ∧
    (DepthSorter.sort w)._needsSort = w._needsSort ∧
    (∀ r, (DepthSorter.sort w).heap r = w.heap r) := by
  rw [sort_of_clean w hclean]
  exact ⟨rfl, rfl, rfl, rfl, fun _ => rfl⟩

/-- Witness for C7: a sorter that was sorted after `add(0, 5, 2, 10)` is clean. -/
theorem sort_clean_noop_witness :
    (DepthSorter.sort (DepthSorter.add freshSorter 0 5 2 10))._needsSort = false ∧
    (DepthSorter.sort (DepthSorter.sort (DepthSorter.add freshSorter 0 5 2 10))
      = DepthSorter.sort (DepthSorter.add freshSorter 0 5 2 10) ∧
    (DepthSorter.sort (DepthSorter.sort (DepthSorter.add freshSorter 0 5 2 10))).setDepthCalls
      = (DepthSorter.sort (DepthSorter.add freshSorter 0 5 2 10)).setDepthCalls ∧
    (DepthSorter.sort (DepthSorter.sort (DepthSorter.add freshSorter 0 5 2 10))).objects
      = (DepthSorter.sort (DepthSorter.add freshSorter 0 5 2 10)).objects ∧
    (DepthSorter.sort (DepthSorter.sort (DepthSorter.add freshSorter 0 5 2 10)))._needsSort
      = (DepthSorter.sort (DepthSorter.add freshSorter 0 5 2 10))._needsSort ∧
    (∀ r, (DepthSorter.sort (DepthSorter.sort (DepthSorter.add freshSorter 0 5 2 10))).heap r
      = (DepthSorter.sort (DepthSorter.add freshSorter 0 5 2 10)).heap r)) :=
  ⟨rfl, sort_clean_noop (DepthSorter.sort (DepthSorter.add freshSorter 0 5 2 10)) rfl⟩

/-- C8: `sort()` is idempotent: from every state, a second `sort()` right after
the first leaves the state as the first left it, so every drawable has the same
depth and the second call makes no `setDepth` call. -/
theorem sort_idempotent (w : State) :
    DepthSorter.sort (DepthSorter.sort w) = DepthSorter.sort w ∧
    (∀ r, ((DepthSorter.sort (DepthSorter.sort w)).heap r).depth
      = ((DepthSorter.sort w).heap r).depth) ∧
    (DepthSorter.sort (DepthSorter.sort w)).setDepthCalls
      = (DepthSorter.sort w).setDepthCalls := by
  have hclean : (DepthSorter.sort w)._needsSort = false := by
    cases h : w._needsSort
    · rw [sort_of_clean w h]; exact h
    · rw [sort_of_dirty w h]
  rw [sort_of_clean _ hclean]
  exact ⟨rfl, fun _ => rfl, rfl⟩

/-- C9 (counterexample): on a fresh sorter, drawable 0 is not registered, yet
`updatePosition(0, 3, 4)` sets the dirty flag and the drawable's grid tags. -/
theorem updatePosition_unregistered_not_noop :
    (0 : Ref) ∉ freshSorter.objects ∧
    freshSorter._needsSort = false ∧
    (DepthSorter.updatePosition freshSorter 0 3 4)._needsSort = true ∧
    (freshSorter.heap 0).tags = (none, none, none) ∧
    ((DepthSorter.updatePosition freshSorter 0 3 4).heap 0).tags = (some 3, some 4, none) := by
  refine ⟨by simp [freshSorter, DepthSorter.new], rfl, rfl, rfl, ?_⟩
  simp [DepthSorter.updatePosition, GameObject.tags, freshSorter, DepthSorter.new,
    GameObject.fresh]

/-- C9 (amended): `updatePosition` on a drawable that is not in the registry
matches no entry: the registry (which still does not hold the drawable) and
the `setDepth` history are unchanged and no other drawable is touched.  But it
is not a no-op: it sets the drawable's grid position tags to
`(gx, gy)` (layer offset and depth unchanged) and sets the dirty flag. -/
theorem updatePosition_unregistered (w : State) (obj : Ref) (gx gy : ℚ)
    (hnot : obj ∉ w.objects) :
    obj ∉ (DepthSorter.updatePosition w obj gx gy).objects ∧
    (DepthSorter.updatePosition w obj gx gy).objects = w.objects ∧
    (DepthSorter.updatePosition w obj gx gy).setDepthCalls = w.setDepthCalls ∧
    (DepthSorter.updatePosition w obj gx gy)._needsSort = true ∧
    ((DepthSorter.updatePosition w obj gx gy).heap obj).tags
      = (some gx, some gy, (w.heap obj)._isoLayerOffset) ∧
    ((DepthSorter.updatePosition w obj gx gy).heap obj).depth = (w.heap obj).depth ∧
    (∀ r, r ≠ obj → (DepthSorter.updatePosition w obj gx gy).heap r = w.heap r) := by
  refine ⟨hnot, rfl, rfl, rfl, ?_, ?_, ?_⟩
  · simp [DepthSorter.updatePosition, GameObject.tags]
  · simp [DepthSorter.updatePosition]
  · intro r hr
    simp [DepthSorter.updatePosition, Function.update_noteq hr]

/-- Witness for C9 (amended): drawable 0 on a fresh sorter. -/
theorem updatePosition_unregistered_witness :
    (0 : Ref) ∉ freshSorter.objects ∧
    ((0 : Ref) ∉ (DepthSorter.updatePosition freshSorter 0 3 4).objects ∧
    (DepthSorter.updatePosition freshSorter 0 3 4).objects = freshSorter.objects ∧
    (DepthSorter.updatePosition freshSorter 0 3 4).setDepthCalls = freshSorter.setDepthCalls ∧
    (DepthSorter.updatePosition freshSorter 0 3 4)._needsSort = true ∧
    ((DepthSorter.updatePosition freshSorter 0 3 4).heap 0).tags
      = (some 3, some 4, (freshSorter.heap 0)._isoLayerOffset) ∧
    ((DepthSorter.updatePosition freshSorter 0 3 4).heap 0).depth = (freshSorter.heap 0).depth ∧
    (∀ r, r ≠ 0 → (DepthSorter.updatePosition freshSorter 0 3 4).heap r = freshSorter.heap r)) :=
  ⟨by simp [freshSorter, DepthSorter.new],
    updatePosition_unregistered freshSorter 0 3 4 (by simp [freshSorter, DepthSorter.new])⟩

/-- C10 (counterexample): after `add(0, 1, 1, 1)` and `add(0, 2, 2, 2)` on a
fresh sorter the registry holds two entries for drawable 0, and the first one
no longer carries `(1, 1, 1)`: it reads `(2, 2, 2)`. -/
theorem add_twice_first_entry_overwritten :
    (DepthSorter.add (DepthSorter.add freshSorter 0 1 1 1) 0 2 2 2).objects = [0, 0] ∧
    entryTags (DepthSorter.add freshSorter 0 1 1 1) 0 = some (some 1, some 1, some 1) ∧
    entryTags (DepthSorter.add (DepthSorter.add freshSorter 0 1 1 1) 0 2 2 2) 0
      = some (some 2, some 2, some 2) ∧
    entryTags (DepthSorter.add (DepthSorter.add freshSorter 0 1 1 1) 0 2 2 2) 0
      ≠ some (some 1, some 1, some 1) := by
  refine ⟨rfl, ?_, ?_, ?_⟩ <;>
    simp [entryTags, DepthSorter.add, freshSorter, DepthSorter.new, GameObject.tags]

/-- C10 (amended): adding the same drawable twice appends two registry entries
for it; both entries refer to the one drawable, so both carry the tags of the
second call, `(gx2, gy2, l2)`. -/
theorem add_twice (w : State) (d : Ref) (gx1 gy1 l1 gx2 gy2 l2 : ℚ) :
    (DepthSorter.add (DepthSorter.add w d gx1 gy1 l1) d gx2 gy2 l2).objects
      = w.objects ++ [d, d] ∧
    entryTags (DepthSorter.add (DepthSorter.add w d gx1 gy1 l1) d gx2 gy2 l2)
        w.objects.length = some (some gx2, some gy2, some l2) ∧
    entryTags (DepthSorter.add (DepthSorter.add w d gx1 gy1 l1) d gx2 gy2 l2)
        (w.objects.length + 1) = some (some gx2, some gy2, some l2) := by
  have hobjs : (DepthSorter.add (DepthSorter.add w d gx1 gy1 l1) d gx2 gy2 l2).objects
      = w.objects ++ [d, d] := by
    simp [DepthSorter.add]
  have htags : ((DepthSorter.add (DepthSorter.add w d gx1 gy1 l1) d gx2 gy2 l2).heap d).tags
      = (some gx2, some gy2, some l2) := by
    simp [DepthSorter.add, GameObject.tags]
  refine ⟨hobjs, ?_, ?_⟩
  · simp only [entryTags, hobjs, List.get?_eq_getElem?]
    rw [List.getElem?_append_right (le_refl _)]
    simpa using htags
  · simp only [entryTags, hobjs, List.get?_eq_getElem?]
    rw [List.getElem?_append_right (Nat.le_succ _)]
    simpa using htags

/-! ## DepthSorter: `remove`, `add`, `updatePosition`, `clear` -/

theorem indexOf_of_mem (xs : List Ref) (obj : Ref) (h : obj ∈ xs) :
    indexOf xs obj = (xs.indexOf obj : Int) := by
  simp [indexOf, List.indexOf_lt_length.mpr h]

theorem indexOf_of_not_mem (xs : List Ref) (obj : Ref) (h : obj ∉ xs) :
    indexOf xs obj = -1 := by
  have : ¬ xs.indexOf obj < xs.length := fun hlt => h (List.indexOf_lt_length.mp hlt)
  simp [indexOf, this]

theorem remove_objects (w : State) (obj : Ref) :
    (DepthSorter.remove w obj).objects = w.objects.erase obj := by
  by_cases h : obj ∈ w.objects
  · have hi := indexOf_of_mem w.objects obj h
    have hpos : indexOf w.objects obj > -1 := by rw [hi]; omega
    simp only [DepthSorter.remove, hpos, if_true]
    rw [hi, Int.toNat_ofNat, List.eraseIdx_indexOf_eq_erase]
  · have hi := indexOf_of_not_mem w.objects obj h
    simp [DepthSorter.remove, hi, List.erase_of_not_mem h]

theorem remove_frame (w : State) (obj : Ref) :
    (DepthSorter.remove w obj)._needsSort = w._needsSort ∧
    (DepthSorter.remove w obj).heap = w.heap ∧
    (DepthSorter.remove w obj).setDepthCalls = w.setDepthCalls := by
  unfold DepthSorter.remove
  by_cases h : indexOf w.objects obj > -1 <;> simp [h]

/-- C11: `remove(d)` removes exactly the first registry entry identical to `d`
and keeps every other entry in its order (the registry before is
`pre ++ d :: post` with `d` not in `pre`, after it is `pre ++ post`); if `d` is not
registered the whole state is unchanged; the dirty flag is never touched. -/
theorem remove_first_match (w : State) (d : Ref) :
    (d ∈ w.objects → ∃ pre post, d ∉ pre ∧ w.objects = pre ++ d :: post ∧
      (DepthSorter.remove w d).objects = pre ++ post) ∧
    (d ∉ w.objects → DepthSorter.remove w d = w) ∧
    (DepthSorter.remove w d)._needsSort = w._needsSort ∧
    (DepthSorter.remove w d).heap = w.heap ∧
    (DepthSorter.remove w d).setDepthCalls = w.setDepthCalls := by
  refine ⟨?_, ?_, remove_frame w d⟩
  · intro h
    obtain ⟨pre, post, hpre, hsplit, herase⟩ := List.exists_erase_eq h
    exact ⟨pre, post, hpre, hsplit, by rw [remove_objects, herase]⟩
  · intro h
    simp [DepthSorter.remove, indexOf_of_not_mem w.objects d h]

/-- Witness for C11: removing drawable 0 from the registry `[1, 0, 2, 0]`, and
removing the unregistered drawable 7 from it. -/
theorem remove_first_match_witness :
    (0 : Ref) ∈ [1, 0, 2, 0] ∧ (7 : Ref) ∉ [1, 0, 2, 0] ∧
    (∃ pre post, (0 : Ref) ∉ pre ∧ [1, 0, 2, 0] = pre ++ 0 :: post ∧
      (DepthSorter.remove { freshSorter with objects := [1, 0, 2, 0] } 0).objects
        = pre ++ post) ∧
    DepthSorter.remove { freshSorter with objects := [1, 0, 2, 0] } 7
      = { freshSorter with objects := [1, 0, 2, 0] } :=
  ⟨by decide, by decide,
    (remove_first_match { freshSorter with objects := [1, 0, 2, 0] } 0).1 (by decide),
    (remove_first_match { freshSorter with objects := [1, 0, 2, 0] } 7).2.1 (by decide)⟩

/-- C12: `add(d, gx, gy, layerOffset)` appends `d` to the registry (one entry
more, the existing entries unchanged), tags `d` with `gx`, `gy` and
`layerOffset` (0 when the argument is omitted), leaves every other drawable and
`d`'s depth alone, and leaves the dirty flag set. -/
theorem add_appends_and_tags (w : State) (d : Ref) (gx gy layerOffset : ℚ) :
    (DepthSorter.add w d gx gy layerOffset).objects = w.objects ++ [d] ∧
    (DepthSorter.add w d gx gy layerOffset).objects.length = w.objects.length + 1 ∧
    ((DepthSorter.add w d gx gy layerOffset).heap d).tags
      = (some gx, some gy, some layerOffset) ∧
    ((DepthSorter.add w d gx gy).heap d).tags = (some gx, some gy, some 0) ∧
    DepthSorter.add w d gx gy = DepthSorter.add w d gx gy 0 ∧
    ((DepthSorter.add w d gx gy layerOffset).heap d).depth = (w.heap d).depth ∧
    (∀ r, r ≠ d → (DepthSorter.add w d gx gy layerOffset).heap r = w.heap r) ∧
    (DepthSorter.add w d gx gy layerOffset)._needsSort = true ∧
    (DepthSorter.add w d gx gy layerOffset).setDepthCalls = w.setDepthCalls := by
  refine ⟨rfl, by simp [DepthSorter.add], ?_, ?_, rfl, ?_, ?_, rfl, rfl⟩
  · simp [DepthSorter.add, GameObject.tags]
  · simp [DepthSorter.add, GameObject.tags]
  · simp [DepthSorter.add]
  · intro r hr
    simp [DepthSorter.add, Function.update_noteq hr]

/-- C13: `updatePosition(d, gx, gy)` on a registered drawable sets `d`'s grid
position to `(gx, gy)` and the dirty flag, leaves `d`'s layer offset, the
registry and every other drawable unchanged, and a following `sort()` gives `d`
the depth `(gx + gy) * 100 +` its original layer offset. -/
theorem updatePosition_registered (w : State) (d : Ref) (gx gy l : ℚ)
    (hreg : d ∈ w.objects) (hl : (w.heap d)._isoLayerOffset = some l) :
    ((DepthSorter.updatePosition w d gx gy).heap d).tags = (some gx, some gy, some l) ∧
    (DepthSorter.updatePosition w d gx gy)._needsSort = true ∧
    (DepthSorter.updatePosition w d gx gy).objects = w.objects ∧
    (∀ r, r ≠ d → (DepthSorter.updatePosition w d gx gy).heap r = w.heap r) ∧
    ((DepthSorter.sort (DepthSorter.updatePosition w d gx gy)).heap d).depth
      = some ((gx + gy) * 100 + l) ∧
    ((DepthSorter.sort (DepthSorter.updatePosition w d gx gy)).heap d).tags
      = (some gx, some gy, some l) := by
  have htags : ((DepthSorter.updatePosition w d gx gy).heap d).tags
      = (some gx, some gy, some l) := by
    simp [DepthSorter.updatePosition, GameObject.tags, hl]
  have hcd : calculateDepthOf ((DepthSorter.updatePosition w d gx gy).heap d)
      = some ((gx + gy) * 100 + l) := by
    simp [DepthSorter.updatePosition, calculateDepthOf, calculateDepth, hl]
  have hheap : (DepthSorter.sort (DepthSorter.updatePosition w d gx gy)).heap d
      = { (DepthSorter.updatePosition w d gx gy).heap d with
          depth := some ((gx + gy) * 100 + l) } := by
    rw [sort_of_dirty _ rfl]
    show (sortLoop _ _).heap d = _
    rw [sortLoop_heap, hcd]
    have hmem : d ∈ (DepthSorter.updatePosition w d gx gy).objects := hreg
    simp [hmem]
  refine ⟨htags, rfl, rfl, ?_, ?_, ?_⟩
  · intro r hr
    simp [DepthSorter.updatePosition, Function.update_noteq hr]
  · rw [hheap]
  · rw [hheap]
    simpa [GameObject.tags] using htags

/-- Witness for C13: drawable 0 registered by `add(0, 5, 2, 10)` on a fresh
sorter, then moved to the cell (1, 3). -/
theorem updatePosition_registered_witness :
    (0 : Ref) ∈ (DepthSorter.add freshSorter 0 5 2 10).objects ∧
    ((DepthSorter.add freshSorter 0 5 2 10).heap 0)._isoLayerOffset = some 10 ∧
    ((DepthSorter.sort
        (DepthSorter.updatePosition (DepthSorter.add freshSorter 0 5 2 10) 0 1 3)).heap 0).depth
      = some ((1 + 3) * 100 + 10) :=
  ⟨by simp [DepthSorter.add, freshSorter, DepthSorter.new],
    by simp [DepthSorter.add],
    (updatePosition_registered (DepthSorter.add freshSorter 0 5 2 10) 0 1 3 10
      (by simp [DepthSorter.add, freshSorter, DepthSorter.new])
      (by simp [DepthSorter.add])).2.2.2.2.1⟩

/-- C14: `clear()` empties the registry from any state and leaves the dirty
flag and every drawable as they were; the next `sort()` makes no `setDepth`
call and changes no drawable. -/
theorem clear_empties (w : State) :
    (DepthSorter.clear w).objects = [] ∧
    (DepthSorter.clear w)._needsSort = w._needsSort ∧
    (DepthSorter.clear w).heap = w.heap ∧
    (DepthSorter.clear w).setDepthCalls = w.setDepthCalls ∧
    (DepthSorter.sort (DepthSorter.clear w)).setDepthCalls = w.setDepthCalls ∧
    (DepthSorter.sort (DepthSorter.clear w)).heap = w.heap ∧
    (DepthSorter.sort (DepthSorter.clear w)).objects = [] := by
  refine ⟨rfl, rfl, rfl, rfl, ?_, ?_, ?_⟩ <;>
  · cases h : w._needsSort
    · rw [sort_of_clean _ (by simpa [DepthSorter.clear] using h)]
      rfl
    · rw [sort_of_dirty _ (by simpa [DepthSorter.clear] using h)]
      rfl

/-! ## Tile and box geometry: theorems -/

/-- C15: `getTileCorners(gx, gy)` returns the four points of the diamond
centred at `c = gridToScreen(gx, gy)`: top `c - (0, hh)`, right `c + (hw, 0)`,
bottom `c + (0, hh)`, left `c - (hw, 0)`, with `hw = 32` and `hh = 16`. -/
theorem getTileCorners_diamond (gx gy : ℚ) :
    getTileCorners gx gy =
      { top := { x := (gridToScreen gx gy).x, y := (gridToScreen gx gy).y - 16 }
        right := { x := (gridToScreen gx gy).x + 32, y := (gridToScreen gx gy).y }
        bottom := { x := (gridToScreen gx gy).x, y := (gridToScreen gx gy).y + 16 }
        left := { x := (gridToScreen gx gy).x - 32, y := (gridToScreen gx gy).y } } ∧
    TILE_CONFIG.WIDTH / 2 = 32 ∧ TILE_CONFIG.HEIGHT / 2 = 16 := by
  simp only [getTileCorners, TILE_CONFIG.WIDTH, TILE_CONFIG.HEIGHT]
  norm_num

/-- C16: for every height `h`, the top face of `getBoxVertices(1, 1, h)` is, in
order, the top, right, bottom and left corners of `getTileCorners(0, 0)` each
moved up by `h`; it is symmetric about `(0, -h)` (mirrored in the vertical
axis `x = 0` and in the horizontal axis `y = -h`); and for `h = 18` the points
are (0,-34), (32,-18), (0,-2), (-32,-18). -/
theorem getBoxVertices_unit_top (h : ℚ) :
    (getBoxVertices 1 1 h).top =
      [ (getTileCorners 0 0).top.raise h, (getTileCorners 0 0).right.raise h,
        (getTileCorners 0 0).bottom.raise h, (getTileCorners 0 0).left.raise h ] ∧
    (getBoxVertices 1 1 h).top =
      [ { x := 0, y := -h - 16 }, { x := 32, y := -h },
        { x := 0, y := -h + 16 }, { x := -32, y := -h } ] ∧
    (∀ p ∈ (getBoxVertices 1 1 h).top,
      ({ x := -p.x, y := p.y } : ScreenPoint) ∈ (getBoxVertices 1 1 h).top ∧
      ({ x := p.x, y := 2 * (-h) - p.y } : ScreenPoint) ∈ (getBoxVertices 1 1 h).top) ∧
    (getBoxVertices 1 1 18).top =
      [ { x := 0, y := -34 }, { x := 32, y := -18 },
        { x := 0, y := -2 }, { x := -32, y := -18 } ] := by
  have hexp : ∀ k : ℚ, (getBoxVertices 1 1 k).top =
      [ { x := 0, y := -k - 16 }, { x := 32, y := -k },
        { x := 0, y := -k + 16 }, { x := -32, y := -k } ] := by
    intro k
    simp only [getBoxVertices, TILE_CONFIG.WIDTH, TILE_CONFIG.HEIGHT, List.cons.injEq,
      ScreenPoint.mk.injEq, and_true, true_and]
    norm_num
    constructor <;> ring
  refine ⟨?_, hexp h, ?_, ?_⟩
  · rw [hexp h]
    simp only [getTileCorners, gridToScreen, ScreenPoint.raise, TILE_CONFIG.WIDTH,
      TILE_CONFIG.HEIGHT, List.cons.injEq, ScreenPoint.mk.injEq, and_true]
    norm_num
    constructor <;> ring
  · rw [hexp h]
    intro p hp
    simp only [List.mem_cons, List.mem_singleton, List.not_mem_nil, or_false] at hp
    rcases hp with rfl | rfl | rfl | rfl <;>
      refine ⟨?_, ?_⟩ <;>
      simp only [List.mem_cons, List.mem_singleton, List.not_mem_nil, or_false,
        ScreenPoint.mk.injEq]
    all_goals norm_num
    · right; ring
    · ring
    · left; ring
    · ring
  · rw [hexp 18]
    norm_num

/-- C18: `gridToScreen` has constant unit steps: one cell along gx moves the
screen point by `(hw, hh) = (32, 16)`, one cell along gy by
`(-hw, hh) = (-32, 16)`. -/
theorem gridToScreen_unit_steps (gx gy : ℚ) :
    (gridToScreen (gx + 1) gy).x - (gridToScreen gx gy).x = 32 ∧
    (gridToScreen (gx + 1) gy).y - (gridToScreen gx gy).y = 16 ∧
    (gridToScreen gx (gy + 1)).x - (gridToScreen gx gy).x = -32 ∧
    (gridToScreen gx (gy + 1)).y - (gridToScreen gx gy).y = 16 ∧
    TILE_CONFIG.WIDTH / 2 = 32 ∧ TILE_CONFIG.HEIGHT / 2 = 16 := by
  simp only [gridToScreen, TILE_CONFIG.WIDTH, TILE_CONFIG.HEIGHT]
  refine ⟨by ring, by ring, by ring, by ring, by norm_num, by norm_num⟩

/-- C17 (evaluation at the failing input): for a 2-by-1 footprint the top face
of `getBoxVertices(2, 1, 0)` shares no vertex with the projection of the
centred 2-by-1 grid rectangle; in general the top face is that projection
exactly when `width = depth`, and for `width ≠ depth` it is not even a
translate of it. -/
theorem getBoxVertices_top_not_projection :
    (getBoxVertices 2 1 0).top =
      [ { x := 0, y := -16 }, { x := 64, y := 0 }, { x := 0, y := 16 }, { x := -64, y := 0 } ] ∧
    footprintProjection 2 1 0 =
      [ { x := -16, y := -24 }, { x := 48, y := 8 }, { x := 16, y := 24 },
        { x := -48, y := -8 } ] ∧
    (∀ p ∈ (getBoxVertices 2 1 0).top, p ∉ footprintProjection 2 1 0) ∧
    (∀ width depth height : ℚ,
      (getBoxVertices width depth height).top = footprintProjection width depth height
        ↔ width = depth) ∧
    (∀ width depth height : ℚ,
      (∃ tx ty : ℚ, (getBoxVertices width depth height).top
          = (footprintProjection width depth height).map
              fun p => { x := p.x + tx, y := p.y + ty })
        → width = depth) := by
  have htop : (getBoxVertices 2 1 0).top =
      [ { x := 0, y := -16 }, { x := 64, y := 0 }, { x := 0, y := 16 },
        { x := -64, y := 0 } ] := by
    simp only [getBoxVertices, TILE_CONFIG.WIDTH, TILE_CONFIG.HEIGHT]
    norm_num
  have hproj : footprintProjection 2 1 0 =
      [ { x := -16, y := -24 }, { x := 48, y := 8 }, { x := 16, y := 24 },
        { x := -48, y := -8 } ] := by
    simp only [footprintProjection, gridToScreen, ScreenPoint.raise, TILE_CONFIG.WIDTH,
      TILE_CONFIG.HEIGHT]
    norm_num
  refine ⟨htop, hproj, ?_, ?_, ?_⟩
  · rw [htop, hproj]
    intro p hp
    simp only [List.mem_cons, List.mem_singleton, List.not_mem_nil, or_false] at hp
    rcases hp with rfl | rfl | rfl | rfl <;>
      simp only [List.mem_cons, List.mem_singleton, List.not_mem_nil, or_false,
        ScreenPoint.mk.injEq] <;>
      norm_num
  · intro width depth height
    simp only [getBoxVertices, footprintProjection, gridToScreen, ScreenPoint.raise,
      TILE_CONFIG.WIDTH, TILE_CONFIG.HEIGHT, List.cons.injEq, ScreenPoint.mk.injEq, and_true]
    constructor
    · rintro ⟨⟨hx, -⟩, -⟩
      linarith
    · intro hwd
      subst hwd
      refine ⟨⟨by ring, by ring⟩, ⟨by ring, by ring⟩, ⟨by ring, by ring⟩, by ring, by ring⟩
  · rintro width depth height ⟨tx, ty, heq⟩
    simp only [getBoxVertices, footprintProjection, gridToScreen, ScreenPoint.raise,
      TILE_CONFIG.WIDTH, TILE_CONFIG.HEIGHT, List.map_cons, List.map_nil, List.cons.injEq,
      ScreenPoint.mk.injEq, and_true] at heq
    obtain ⟨⟨-, hn⟩, ⟨-, he⟩, -⟩ := heq
    linarith

/-- C19: the converter functions are total: with every division checked for a
zero divisor, each of `gridToScreen`, `screenToGrid`, `getTileCorners` and
`getBoxVertices` still returns its result on every input, because the only
divisors are `TILE_CONFIG.WIDTH / 2 = 32`, `TILE_CONFIG.HEIGHT / 2 = 16` and 2. -/
theorem converter_total :
    (∀ gx gy : ℚ, gridToScreenChecked gx gy = some (gridToScreen gx gy)) ∧
    (∀ x y : ℚ, screenToGridChecked x y = some (screenToGrid x y)) ∧
    (∀ gx gy : ℚ, getTileCornersChecked gx gy = some (getTileCorners gx gy)) ∧
    (∀ width depth height : ℚ,
      getBoxVerticesChecked width depth height = some (getBoxVertices width depth height)) ∧
    TILE_CONFIG.WIDTH / 2 = 32 ∧ TILE_CONFIG.HEIGHT / 2 = 16 ∧
    TILE_CONFIG.WIDTH / 2 ≠ 0 ∧ TILE_CONFIG.HEIGHT / 2 ≠ 0 ∧ (2 : ℚ) ≠ 0 := by
  have h2 : ∀ a : ℚ, checkedDiv a 2 = some (a / 2) := by
    intro a
    simp [checkedDiv]
  have hw : ∀ a : ℚ, checkedDiv a (TILE_CONFIG.WIDTH / 2) = some (a / (TILE_CONFIG.WIDTH / 2)) := by
    intro a
    simp [checkedDiv, TILE_CONFIG.WIDTH]
  have hh : ∀ a : ℚ,
      checkedDiv a (TILE_CONFIG.HEIGHT / 2) = some (a / (TILE_CONFIG.HEIGHT / 2)) := by
    intro a
    simp [checkedDiv, TILE_CONFIG.HEIGHT]
  have hg : ∀ gx gy : ℚ, gridToScreenChecked gx gy = some (gridToScreen gx gy) := by
    intro gx gy
    simp [gridToScreenChecked, gridToScreen, h2]
  refine ⟨hg, ?_, ?_, ?_, ?_, ?_, ?_, ?_, ?_⟩
  · intro x y
    simp [screenToGridChecked, screenToGrid, h2, hw, hh]
  · intro gx gy
    simp [getTileCornersChecked, getTileCorners, hg, h2]
  · intro width depth height
    simp [getBoxVerticesChecked, getBoxVertices, h2]
  · norm_num [TILE_CONFIG.WIDTH]
  · norm_num [TILE_CONFIG.HEIGHT]
  · norm_num [TILE_CONFIG.WIDTH]
  · norm_num [TILE_CONFIG.HEIGHT]
  · norm_num

/-! ## DepthSorter: the clean-means-sorted invariant -/

theorem new_invariant (heap : Ref → GameObject) :
    AllTagged (DepthSorter.new heap) ∧ CleanMeansSorted (DepthSorter.new heap) := by
  constructor
  · intro obj hobj
    simp [DepthSorter.new] at hobj
  · intro _ obj hobj
    simp [DepthSorter.new] at hobj

theorem add_invariant (w : State) (d : Ref) (gx gy l : ℚ) (ht : AllTagged w) :
    AllTagged (DepthSorter.add w d gx gy l) ∧ CleanMeansSorted (DepthSorter.add w d gx gy l) := by
  constructor
  · intro obj hobj
    by_cases hd : obj = d
    · subst hd
      exact ⟨gx, gy, l, by simp [DepthSorter.add, GameObject.tags]⟩
    · have hmem : obj ∈ w.objects := by
        simpa [DepthSorter.add, hd] using hobj
      obtain ⟨a, b, c, habc⟩ := ht obj hmem
      exact ⟨a, b, c, by simpa [DepthSorter.add, Function.update_noteq hd] using habc⟩
  · intro hclean
    simp [DepthSorter.add] at hclean

theorem updatePosition_invariant (w : State) (d : Ref) (gx gy : ℚ) (ht : AllTagged w) :
    AllTagged (DepthSorter.updatePosition w d gx gy) ∧
    CleanMeansSorted (DepthSorter.updatePosition w d gx gy) := by
  constructor
  · intro obj hobj
    have hmem : obj ∈ w.objects := hobj
    obtain ⟨a, b, c, habc⟩ := ht obj hmem
    by_cases hd : obj = d
    · subst hd
      simp only [GameObject.tags, Prod.mk.injEq] at habc
      exact ⟨gx, gy, c, by simp [DepthSorter.updatePosition, GameObject.tags, habc.2.2]⟩
    · exact ⟨a, b, c, by simpa [DepthSorter.updatePosition, Function.update_noteq hd] using habc⟩
  · intro hclean
    simp [DepthSorter.updatePosition] at hclean

theorem remove_invariant (w : State) (d : Ref) (ht : AllTagged w) (hs : CleanMeansSorted w) :
    AllTagged (DepthSorter.remove w d) ∧ CleanMeansSorted (DepthSorter.remove w d) := by
  obtain ⟨hflag, hheap, -⟩ := remove_frame w d
  have hsub : ∀ obj ∈ (DepthSorter.remove w d).objects, obj ∈ w.objects := by
    intro obj hobj
    rw [remove_objects] at hobj
    exact List.mem_of_mem_erase hobj
  constructor
  · intro obj hobj
    rw [hheap]
    exact ht obj (hsub obj hobj)
  · intro hclean obj hobj
    rw [hheap]
    exact hs (hflag ▸ hclean) obj (hsub obj hobj)

theorem sort_invariant (w : State) (ht : AllTagged w) (hs : CleanMeansSorted w) :
    AllTagged (DepthSorter.sort w) ∧ CleanMeansSorted (DepthSorter.sort w) := by
  cases hflag : w._needsSort
  · rw [sort_of_clean w hflag]
    exact ⟨ht, hs⟩
  · have hobjs : (DepthSorter.sort w).objects = w.objects := by
      rw [sort_of_dirty w hflag]
      exact (sortLoop_objects w.objects w).1
    have hheap : ∀ obj ∈ w.objects, (DepthSorter.sort w).heap obj
        = { w.heap obj with depth := calculateDepthOf (w.heap obj) } := by
      intro obj hobj
      rw [sort_of_dirty w hflag]
      have := sortLoop_heap w.objects w obj
      simpa [hobj] using this
    constructor
    · intro obj hobj
      rw [hobjs] at hobj
      obtain ⟨a, b, c, habc⟩ := ht obj hobj
      exact ⟨a, b, c, by rw [hheap obj hobj]; simpa [GameObject.tags] using habc⟩
    · intro _ obj hobj
      rw [hobjs] at hobj
      rw [hheap obj hobj]
      simp [calculateDepthOf]

theorem step_invariant (w : State) (op : Op) (ht : AllTagged w) (hs : CleanMeansSorted w) :
    AllTagged (step w op) ∧ CleanMeansSorted (step w op) := by
  cases op with
  | add obj gx gy l => exact add_invariant w obj gx gy l ht
  | remove obj => exact remove_invariant w obj ht hs
  | updatePosition obj gx gy => exact updatePosition_invariant w obj gx gy ht
  | sort => exact sort_invariant w ht hs
  | markDirty =>
    refine ⟨ht, ?_⟩
    intro hclean
    simp [step, DepthSorter.markDirty] at hclean
  | clear =>
    constructor
    · intro obj hobj
      simp [step, DepthSorter.clear] at hobj
    · intro _ obj hobj
      simp [step, DepthSorter.clear] at hobj

theorem run_invariant (ops : List Op) (w : State) (ht : AllTagged w)
    (hs : CleanMeansSorted w) :
    AllTagged (run w ops) ∧ CleanMeansSorted (run w ops) := by
  induction ops generalizing w with
  | nil => exact ⟨ht, hs⟩
  | cons op rest ih =>
    obtain ⟨ht1, hs1⟩ := step_invariant w op ht hs
    exact ih (step w op) ht1 hs1

/-- C20: in every state reached from a freshly constructed sorter by a
sequence of `add`, `remove`, `updatePosition`, `sort`, `markDirty` and `clear`
calls, if the dirty flag is clear then every drawable in the registry has all
three tags and its depth is `(gx + gy) * 100 + layerOffset` of those tags. -/
theorem reachable_clean_sorted (heap : Ref → GameObject) (ops : List Op)
    (hclean : (run (DepthSorter.new heap) ops)._needsSort = false) :
    ∀ obj ∈ (run (DepthSorter.new heap) ops).objects, ∃ gx gy l : ℚ,
      ((run (DepthSorter.new heap) ops).heap obj).tags = (some gx, some gy, some l) ∧
      ((run (DepthSorter.new heap) ops).heap obj).depth = some ((gx + gy) * 100 + l) := by
  obtain ⟨h0t, h0s⟩ := new_invariant heap
  obtain ⟨ht, hs⟩ := run_invariant ops (DepthSorter.new heap) h0t h0s
  intro obj hobj
  obtain ⟨gx, gy, l, htags⟩ := ht obj hobj
  refine ⟨gx, gy, l, htags, ?_⟩
  rw [hs hclean obj hobj]
  simp only [GameObject.tags, Prod.mk.injEq] at htags
  obtain ⟨hx, hy, hl⟩ := htags
  simp [calculateDepthOf, calculateDepth, hx, hy, hl]

/-- Witness for C20: `add(0, 5, 2, 10)`, `add(1, 5, 7, 0)`, `updatePosition(0, 1, 3)`,
`remove(1)`, `sort()` from a fresh sorter ends clean. -/
theorem reachable_clean_sorted_witness :
    (run (DepthSorter.new fun _ => GameObject.fresh)
      [Op.add 0 5 2 10, Op.add 1 5 7 0, Op.updatePosition 0 1 3, Op.remove 1,
        Op.sort])._needsSort = false ∧
    ∀ obj ∈ (run (DepthSorter.new fun _ => GameObject.fresh)
        [Op.add 0 5 2 10, Op.add 1 5 7 0, Op.updatePosition 0 1 3, Op.remove 1,
          Op.sort]).objects,
      ∃ gx gy l : ℚ,
        ((run (DepthSorter.new fun _ => GameObject.fresh)
          [Op.add 0 5 2 10, Op.add 1 5 7 0, Op.updatePosition 0 1 3, Op.remove 1,
            Op.sort]).heap obj).tags = (some gx, some gy, some l) ∧
        ((run (DepthSorter.new fun _ => GameObject.fresh)
          [Op.add 0 5 2 10, Op.add 1 5 7 0, Op.updatePosition 0 1 3, Op.remove 1,
            Op.sort]).heap obj).depth = some ((gx + gy) * 100 + l) :=
  ⟨by rfl, reachable_clean_sorted _ _ (by rfl)⟩

/-! ## Camera zoom: theorems -/

theorem clamp_bounds (value : ℚ) :
    CAMERA_CONFIG.MIN_ZOOM
      ≤ Phaser.Math.Clamp value CAMERA_CONFIG.MIN_ZOOM CAMERA_CONFIG.MAX_ZOOM ∧
    Phaser.Math.Clamp value CAMERA_CONFIG.MIN_ZOOM CAMERA_CONFIG.MAX_ZOOM
      ≤ CAMERA_CONFIG.MAX_ZOOM := by
  have hle : CAMERA_CONFIG.MIN_ZOOM ≤ CAMERA_CONFIG.MAX_ZOOM := by
    norm_num [CAMERA_CONFIG.MIN_ZOOM, CAMERA_CONFIG.MAX_ZOOM]
  exact ⟨le_max_left _ _, max_le hle (min_le_left _ _)⟩

theorem zoom_cameraZoom (s : OfficeScene) (factor pivotX pivotY : ℚ) :
    (OfficeScene._zoom s factor pivotX pivotY).cameraZoom
      = Phaser.Math.Clamp (s.cameraZoom * factor)
          CAMERA_CONFIG.MIN_ZOOM CAMERA_CONFIG.MAX_ZOOM ∧
    (OfficeScene._zoom s factor pivotX pivotY).worldContainerScale
      = (OfficeScene._zoom s factor pivotX pivotY).cameraZoom :=
  ⟨rfl, rfl⟩

/-- C21: zooming is centred on the pivot: after `_zoom(factor, pivotX, pivotY)`
from a state with non-zero `cameraZoom`, the world point under the pivot is
the same, `(pivot - newContainer) / newZoom = (pivot - oldContainer) / oldZoom`
in x and in y, where `newZoom` is the clamped zoom that was applied. -/
theorem zoom_keeps_pivot (s : OfficeScene) (factor pivotX pivotY : ℚ)
    (hzoom : s.cameraZoom ≠ 0) :
    (OfficeScene._zoom s factor pivotX pivotY).cameraZoom
      = Phaser.Math.Clamp (s.cameraZoom * factor)
          CAMERA_CONFIG.MIN_ZOOM CAMERA_CONFIG.MAX_ZOOM ∧
    (pivotX - (OfficeScene._zoom s factor pivotX pivotY).worldContainerX)
        / (OfficeScene._zoom s factor pivotX pivotY).cameraZoom
      = (pivotX - s.worldContainerX) / s.cameraZoom ∧
    (pivotY - (OfficeScene._zoom s factor pivotX pivotY).worldContainerY)
        / (OfficeScene._zoom s factor pivotX pivotY).cameraZoom
      = (pivotY - s.worldContainerY) / s.cameraZoom := by
  have hnew : Phaser.Math.Clamp (s.cameraZoom * factor)
      CAMERA_CONFIG.MIN_ZOOM CAMERA_CONFIG.MAX_ZOOM ≠ 0 := by
    have hlo := (clamp_bounds (s.cameraZoom * factor)).1
    have hpos : (0 : ℚ) < CAMERA_CONFIG.MIN_ZOOM := by norm_num [CAMERA_CONFIG.MIN_ZOOM]
    exact ne_of_gt (lt_of_lt_of_le hpos hlo)
  refine ⟨rfl, ?_, ?_⟩
  · simp only [OfficeScene._zoom]
    field_simp
    ring
  · simp only [OfficeScene._zoom]
    field_simp
    ring

/-- Witness for C21: a wheel-sized zoom by 1.1 about the pointer (100, 200),
from the state `create()` leaves on an 800-by-600 canvas. -/
theorem zoom_keeps_pivot_witness :
    (OfficeScene.create 800 600).cameraZoom ≠ 0 ∧
    ((OfficeScene._zoom (OfficeScene.create 800 600) 1.1 100 200).cameraZoom
      = Phaser.Math.Clamp ((OfficeScene.create 800 600).cameraZoom * 1.1)
          CAMERA_CONFIG.MIN_ZOOM CAMERA_CONFIG.MAX_ZOOM ∧
    (100 - (OfficeScene._zoom (OfficeScene.create 800 600) 1.1 100 200).worldContainerX)
        / (OfficeScene._zoom (OfficeScene.create 800 600) 1.1 100 200).cameraZoom
      = (100 - (OfficeScene.create 800 600).worldContainerX)
        / (OfficeScene.create 800 600).cameraZoom ∧
    (200 - (OfficeScene._zoom (OfficeScene.create 800 600) 1.1 100 200).worldContainerY)
        / (OfficeScene._zoom (OfficeScene.create 800 600) 1.1 100 200).cameraZoom
      = (200 - (OfficeScene.create 800 600).worldContainerY)
        / (OfficeScene.create 800 600).cameraZoom) :=
  ⟨by norm_num [OfficeScene.create, OfficeScene._setupCamera, CAMERA_CONFIG.DEFAULT_ZOOM],
    zoom_keeps_pivot (OfficeScene.create 800 600) 1.1 100 200
      (by norm_num [OfficeScene.create, OfficeScene._setupCamera,
        CAMERA_CONFIG.DEFAULT_ZOOM])⟩

theorem cameraStep_invariant (s : OfficeScene) (op : CameraOp)
    (hlo : CAMERA_CONFIG.MIN_ZOOM ≤ s.cameraZoom)
    (hhi : s.cameraZoom ≤ CAMERA_CONFIG.MAX_ZOOM) :
    CAMERA_CONFIG.MIN_ZOOM ≤ (cameraStep s op).cameraZoom ∧
    (cameraStep s op).cameraZoom ≤ CAMERA_CONFIG.MAX_ZOOM ∧
    (cameraStep s op).worldContainerScale = (cameraStep s op).cameraZoom := by
  cases op with
  | wheel pointerX pointerY deltaY =>
    exact ⟨(clamp_bounds _).1, (clamp_bounds _).2, rfl⟩
  | zoomIn mainWidth mainHeight =>
    exact ⟨(clamp_bounds _).1, (clamp_bounds _).2, rfl⟩
  | zoomOut mainWidth mainHeight =>
    exact ⟨(clamp_bounds _).1, (clamp_bounds _).2, rfl⟩
  | resetView mainWidth mainHeight =>
    exact ⟨hlo, hhi, rfl⟩

theorem cameraRun_invariant (ops : List CameraOp) (s : OfficeScene)
    (hlo : CAMERA_CONFIG.MIN_ZOOM ≤ s.cameraZoom)
    (hhi : s.cameraZoom ≤ CAMERA_CONFIG.MAX_ZOOM)
    (hscale : s.worldContainerScale = s.cameraZoom) :
    CAMERA_CONFIG.MIN_ZOOM ≤ (cameraRun s ops).cameraZoom ∧
    (cameraRun s ops).cameraZoom ≤ CAMERA_CONFIG.MAX_ZOOM ∧
    (cameraRun s ops).worldContainerScale = (cameraRun s ops).cameraZoom := by
  induction ops generalizing s with
  | nil => exact ⟨hlo, hhi, hscale⟩
  | cons op rest ih =>
    obtain ⟨h1, h2, h3⟩ := cameraStep_invariant s op hlo hhi
    exact ih (cameraStep s op) h1 h2 h3

/-- C22: the camera zoom never leaves its configured range: from the state
`create()` leaves (zoom `DEFAULT_ZOOM = 1.2`), after any sequence of wheel
zooms (factor 0.9 or 1.1), `zoomIn` (1.2), `zoomOut` (0.8) and `resetView`
calls, `MIN_ZOOM = 0.5 ≤ cameraZoom ≤ MAX_ZOOM = 2.5` and the scale of the
world container equals `cameraZoom`. -/
theorem cameraZoom_in_range (mainWidth mainHeight : ℚ) (ops : List CameraOp) :
    (OfficeScene.create mainWidth mainHeight).cameraZoom = 1.2 ∧
    CAMERA_CONFIG.MIN_ZOOM = 0.5 ∧ CAMERA_CONFIG.MAX_ZOOM = 2.5 ∧
    CAMERA_CONFIG.DEFAULT_ZOOM = 1.2 ∧
    (∀ s : OfficeScene, ∀ pointerX pointerY deltaY : ℚ,
      OfficeScene.wheel s pointerX pointerY deltaY = OfficeScene._zoom s 0.9 pointerX pointerY ∨
      OfficeScene.wheel s pointerX pointerY deltaY = OfficeScene._zoom s 1.1 pointerX pointerY) ∧
    (0.5 : ℚ) ≤ (cameraRun (OfficeScene.create mainWidth mainHeight) ops).cameraZoom ∧
    (cameraRun (OfficeScene.create mainWidth mainHeight) ops).cameraZoom ≤ 2.5 ∧
    (cameraRun (OfficeScene.create mainWidth mainHeight) ops).worldContainerScale
      = (cameraRun (OfficeScene.create mainWidth mainHeight) ops).cameraZoom := by
  have h0 : (OfficeScene.create mainWidth mainHeight).cameraZoom
      = CAMERA_CONFIG.DEFAULT_ZOOM := rfl
  have hmin : CAMERA_CONFIG.MIN_ZOOM = 0.5 := rfl
  have hmax : CAMERA_CONFIG.MAX_ZOOM = 2.5 := rfl
  have hlo : CAMERA_CONFIG.MIN_ZOOM ≤ (OfficeScene.create mainWidth mainHeight).cameraZoom := by
    rw [h0]
    norm_num [CAMERA_CONFIG.MIN_ZOOM, CAMERA_CONFIG.DEFAULT_ZOOM]
  have hhi : (OfficeScene.create mainWidth mainHeight).cameraZoom ≤ CAMERA_CONFIG.MAX_ZOOM := by
    rw [h0]
    norm_num [CAMERA_CONFIG.MAX_ZOOM, CAMERA_CONFIG.DEFAULT_ZOOM]
  obtain ⟨h1, h2, h3⟩ := cameraRun_invariant ops (OfficeScene.create mainWidth mainHeight)
    hlo hhi rfl
  refine ⟨rfl, rfl, rfl, rfl, ?_, hmin ▸ h1, hmax ▸ h2, h3⟩
  intro s pointerX pointerY deltaY
  by_cases hd : deltaY > 0
  · left
    simp [OfficeScene.wheel, hd]
  · right
    simp [OfficeScene.wheel, hd]

end CompanyPhaser
